import Mathlib

/-!
Verification of the pixcompress core (src/pixcompress/core.py) against its
specification.  The Python module is shallowly embedded: pure decision logic
becomes Lean functions, and the effectful body of `compress` becomes a pure
function from an abstract environment (everything the call reads from the
filesystem and the decoded image) to a trace of filesystem effects plus an
outcome.  Machine integers are modelled with Int/Nat and floating point
division inside the thumbnail computation is modelled with exact rationals.
-/

namespace PixCompress

/-! ## Path helpers (model of the pathlib operations used by core.py) -/

/-- Split a character list on a separator character (the list-level analogue
of `str.split(sep)`). -/
def splitOnChar (sep : Char) (cs : List Char) : List (List Char) :=
  match cs with
  | [] => [[]]
  | c :: rest =>
    match splitOnChar sep rest with
    | [] => [[c]]
    | g :: gs => if c = sep then [] :: g :: gs else (c :: g) :: gs

/-- Model of `Path(p).name` (pathlib): the final path component, with empty
and `.` components dropped. -/
def pathName (p : String) : String :=
  String.mk ((((splitOnChar '/' p.toList).filter (fun s => s ≠ [])).filter
    (fun s => s ≠ ['.'])).getLastD [])

/-- Model of `dst_p.suffix.replace(".", "")` from core.py line 119: CPython
computes `suffix` as `name[i:]` where `i` is the index of the last dot of the
final component, provided `0 < i < len(name) - 1`, and the empty string
otherwise; the `replace` then strips the dots of that suffix. -/
def pySuffixNoDot (p : String) : String :=
  let cs := (pathName p).toList
  match cs.reverse.findIdx? (fun c => c = '.') with
  | none => ""
  | some j =>
    let i := cs.length - 1 - j
    if 0 < i ∧ i < cs.length - 1 then String.mk ((cs.drop i).filter (fun c => c ≠ '.'))
    else ""

/-- Model of the pathlib join `out_dir_p / p.name` (core.py line 198) on the
string level: pathlib drops trailing separators of the left operand and
ignores an empty right operand. -/
def pathJoin (d s : String) : String :=
  if s = "" then d
  else String.mk (d.toList.reverse.dropWhile (fun c => c = '/')).reverse ++ "/" ++ s

/-! ## Target-format resolution (core.py line 119) -/

/-- Python truthiness of an optional string operand of `or`: `None` and the
empty string are falsy. -/
def pyOrOpt (a b : Option String) : Option String :=
  match a with
  | some s => if s = "" then b else some s
  | none => b

/-- Final step of a Python `or` chain whose last operand is a plain string. -/
def pyOrStr (a : Option String) (dflt : String) : String :=
  match a with
  | some s => if s = "" then dflt else s
  | none => dflt

/-- Model of Python `str.upper()` on the ASCII format strings involved
here: uppercase every character. -/
def pyUpper (s : String) : String :=
  String.mk (s.toList.map Char.toUpper)

/-- Model of Python `str.lower()` on ASCII strings: lowercase every
character. -/
def pyLower (s : String) : String :=
  String.mk (s.toList.map Char.toLower)

/-- Model of core.py line 119:
`target = (convert_to or img.format or dst_p.suffix.replace(".", "")).upper()`. -/
def resolveTarget (convert_to fmt : Option String) (ext : String) : String :=
  pyUpper (pyOrStr (pyOrOpt convert_to fmt) ext)

/-! ## Resize logic (core.py `_resize_if_needed`, lines 39-64, and the
dimension computation of the collaborator's `Image.thumbnail`) -/

/-- Model of PIL's inner `round_aspect(number, key)`: `max(min(floor(number),
ceil(number), key=key), 1)` — Python's keyed `min` answers the first argument
on ties. -/
def roundAspect (number : ℚ) (key : ℤ → ℚ) : ℤ :=
  max (if key ⌊number⌋ ≤ key ⌈number⌉ then ⌊number⌋ else ⌈number⌉) 1

/-- Dimension semantics of PIL `Image.thumbnail((mx, my))` on an image of
size `(w, h)`: no change when the box already contains the image, otherwise
the image is scaled to the box preserving the aspect ratio, the scaled
fractional dimension being rounded by `round_aspect` (a keyed choice between
floor and ceiling, clamped below by 1).  Python float arithmetic is modelled
with exact rationals. -/
def thumbnailDims (w h mx my : ℕ) : ℕ × ℕ :=
  if w ≤ mx ∧ h ≤ my then (w, h)
  else
    let aspect : ℚ := (w : ℚ) / (h : ℚ)
    if aspect ≤ (mx : ℚ) / (my : ℚ) then
      ((roundAspect ((my : ℚ) * aspect) (fun n => |aspect - (n : ℚ) / (my : ℚ)|)).toNat, my)
    else
      (mx,
       (roundAspect ((mx : ℚ) / aspect)
         (fun n => if n = 0 then 0 else |aspect - (mx : ℚ) / (n : ℚ)|)).toNat)

/-- Model of `_resize_if_needed` (core.py lines 39-64) on the dimension
level: `None` (and, by Python truthiness, a missing tuple) means no resize;
a zero component means no resize; an image already inside the box is
returned unchanged; otherwise `img.thumbnail((mx_w, mx_h))` is applied. -/
def resize_if_needed (dims : ℕ × ℕ) (max_size : Option (ℕ × ℕ)) : ℕ × ℕ :=
  match max_size with
  | none => dims
  | some (mw, mh) =>
    if mw = 0 ∨ mh = 0 then dims
    else if dims.1 ≤ mw ∧ dims.2 ≤ mh then dims
    else thumbnailDims dims.1 dims.2 mw mh

/-! ## Mode normalization and the PNG palette heuristic -/

/-- Model of core.py lines 113-114: modes other than RGB, RGBA and L are
converted to RGB. -/
def normalizeMode (m : String) : String :=
  if m = "RGB" ∨ m = "RGBA" ∨ m = "L" then m else "RGB"

/-- The `img.format` attribute as line 119 sees it.  When lines 113-114
rebind `img` through `img.convert("RGB")`, the converted image is a fresh
in-memory image whose `format` attribute is `None` (Pillow documents
`format` as `None` for images created by the library itself), so the
detected format survives to the target resolution only when the decoded
mode was already RGB, RGBA or L. -/
def formatAfterNormalize (m : String) (fmt : Option String) : Option String :=
  if m = "RGB" ∨ m = "RGBA" ∨ m = "L" then fmt else none

/-- Whether a PIL mode string carries an alpha channel. -/
def hasAlpha (m : String) : Bool :=
  m = "RGBA" ∨ m = "LA" ∨ m = "PA" ∨ m = "RGBa" ∨ m = "La"

/-- Python `int()` applied to an exact rational value: truncation toward
zero. -/
def pyInt (x : ℚ) : ℤ :=
  if 0 ≤ x then ⌊x⌋ else ⌈x⌉

/-- Model of the palette size of core.py line 147:
`max(2, int(256 * quality / 100))`. -/
def paletteCount (q : ℤ) : ℤ :=
  max 2 (pyInt ((256 * (q : ℚ)) / 100))

/-! ## The effect-trace model of `compress` (core.py lines 67-158) -/

/-- Arguments of `compress` (core.py lines 67-75), with the source's default
values. -/
structure CompressArgs where
  src : String
  dst : String
  quality : ℤ := 85
  max_size : Option (ℕ × ℕ) := none
  convert_to : Option String := none
  optimize : Bool := true
  preserve_exif : Bool := false
  progressive : Bool := true
  webp_lossless : Bool := false
deriving DecidableEq

/-- Everything a `compress` call reads from the outside world: existence and
byte size of the source file, the decoded image's mode, detected format,
dimensions and EXIF blob, whether the attempted encode succeeds, and the
byte size of the destination file after the write. -/
structure Env where
  srcExists : Bool
  srcSize : ℕ
  mode : String
  format : Option String
  width : ℕ
  height : ℕ
  exif : Option (List ℕ)
  encodeOk : Bool
  dstSize : ℕ
deriving DecidableEq

/-- A single `img.save(...)` invocation: the destination file, the keyword
arguments passed (absent keywords are `none`), the mode and dimensions of
the image at save time, and the palette size when a `convert("P", ...)`
preceded the save (core.py line 147). -/
structure SaveCall where
  file : String
  format : Option String := none
  quality : Option ℤ := none
  optimize : Option Bool := none
  progressive : Option Bool := none
  lossless : Option Bool := none
  method : Option ℕ := none
  exif : Option (List ℕ) := none
  mode : String
  dims : ℕ × ℕ
  paletteColors : Option ℤ := none
deriving DecidableEq

/-- Filesystem effects a `compress` call can perform, in program order:
creating the destination's parent directories (`_ensure_dir`, line 107), an
`img.save` attempt (with its success flag), and the `shutil.copyfile`
fallback (line 155). -/
inductive Effect where
  | ensureParentDir (dst : String)
  | save (call : SaveCall) (ok : Bool)
  | copyfile (src dst : String)
deriving DecidableEq

/-- Errors `compress` can raise: `FileNotFoundError` (line 105) and an
uncaught encoder error from one of the explicit-format branches. -/
inductive CompressError where
  | sourceNotFound (msg : String)
  | encodeError
deriving DecidableEq

/-- The dictionary returned by `compress` (core.py line 158). -/
structure ResultDict where
  src : String
  dst : String
  orig_size : ℕ
  new_size : ℕ
deriving DecidableEq

/-- The JPEG save call of core.py lines 121-130; an EXIF keyword is added
only when the blob is truthy (non-`None` and non-empty). -/
def jpegSave (dst : String) (q : ℤ) (opt prog : Bool) (exifB : Option (List ℕ))
    (mode : String) (dims : ℕ × ℕ) : SaveCall :=
  { file := dst, format := some "JPEG", quality := some q, optimize := some opt,
    progressive := some prog,
    exif := match exifB with
      | some l => if l = [] then none else some l
      | none => none,
    mode := mode, dims := dims }

/-- The WebP save call of core.py lines 132-139. -/
def webpSave (dst : String) (q : ℤ) (lossless : Bool) (mode : String)
    (dims : ℕ × ℕ) : SaveCall :=
  { file := dst, format := some "WEBP", quality := some q, lossless := some lossless,
    method := some 6, mode := mode, dims := dims }

/-- The PNG save call of core.py lines 141-148: RGBA images are saved
directly; otherwise, for quality below 90 the image is first converted to an
adaptive palette of `max(2, int(256 * quality / 100))` colors. -/
def pngSave (dst : String) (mode : String) (q : ℤ) (opt : Bool)
    (dims : ℕ × ℕ) : SaveCall :=
  if mode = "RGBA" then
    { file := dst, format := some "PNG", optimize := some opt, mode := mode, dims := dims }
  else if q < 90 then
    { file := dst, format := some "PNG", optimize := some opt, mode := "P",
      dims := dims, paletteColors := some (paletteCount q) }
  else
    { file := dst, format := some "PNG", optimize := some opt, mode := mode, dims := dims }

/-- The generic fallback save call of core.py line 153: `img.save(dst_p)`
passes no format keyword at all. -/
def fallbackSave (dst : String) (mode : String) (dims : ℕ × ℕ) : SaveCall :=
  { file := dst, mode := mode, dims := dims }

/-- The format dispatch of core.py lines 121-155, given the precomputed
target string, normalized mode, EXIF blob and final dimensions: it yields
the effects performed after `_ensure_dir` together with the outcome.  In the
three explicit branches a failed save raises; in the fallback branch a
failed save is caught and answered with a byte copy of the source. -/
def encodeStep (a : CompressArgs) (env : Env) (target mode : String)
    (exifB : Option (List ℕ)) (dims : ℕ × ℕ) : List Effect × Except CompressError ResultDict :=
  let res : ResultDict :=
    { src := a.src, dst := a.dst, orig_size := env.srcSize, new_size := env.dstSize }
  if target = "JPG" ∨ target = "JPEG" then
    ([Effect.save (jpegSave a.dst a.quality a.optimize a.progressive exifB mode dims) env.encodeOk],
     if env.encodeOk then Except.ok res else Except.error CompressError.encodeError)
  else if target = "WEBP" then
    ([Effect.save (webpSave a.dst a.quality a.webp_lossless mode dims) env.encodeOk],
     if env.encodeOk then Except.ok res else Except.error CompressError.encodeError)
  else if target = "PNG" then
    ([Effect.save (pngSave a.dst mode a.quality a.optimize dims) env.encodeOk],
     if env.encodeOk then Except.ok res else Except.error CompressError.encodeError)
  else
    if env.encodeOk then
      ([Effect.save (fallbackSave a.dst mode dims) true], Except.ok res)
    else
      ([Effect.save (fallbackSave a.dst mode dims) false, Effect.copyfile a.src a.dst],
       Except.ok res)

/-- Model of `compress` (core.py lines 67-158) as a pure function from the
arguments and the abstract environment to the ordered list of filesystem
effects and the outcome.  The source-existence check (line 104) precedes
every effect; `_ensure_dir` (line 107) precedes the decode and the save;
mode normalization, resize, EXIF extraction and target resolution follow the
source lines 113-119; when line 114 converts the mode, the rebound image's
`format` attribute is `None`, so the target resolution sees
`formatAfterNormalize env.mode env.format` rather than the detected format
itself. -/
def compress (a : CompressArgs) (env : Env) : List Effect × Except CompressError ResultDict :=
  if env.srcExists = false then
    ([], Except.error (CompressError.sourceNotFound a.src))
  else
    let mode := normalizeMode env.mode
    let dims := resize_if_needed (env.width, env.height) a.max_size
    let exifB := if a.preserve_exif then env.exif else none
    let target := resolveTarget a.convert_to (formatAfterNormalize env.mode env.format) (pySuffixNoDot a.dst)
    let st := encodeStep a env target mode exifB dims
    (Effect.ensureParentDir a.dst :: st.1, st.2)

/-- The targets with a dedicated branch in core.py lines 121-148. -/
def isExplicitTarget (t : String) : Bool :=
  t = "JPG" ∨ t = "JPEG" ∨ t = "WEBP" ∨ t = "PNG"

/-- The file an effect writes (or attempts to write). -/
def touchesFile (e : Effect) : Option String :=
  match e with
  | Effect.ensureParentDir _ => none
  | Effect.save c _ => some c.file
  | Effect.copyfile _ d => some d

/-- The file an effect has definitely produced on completion. -/
def writesFileTo (e : Effect) : Option String :=
  match e with
  | Effect.ensureParentDir _ => none
  | Effect.save c ok => if ok then some c.file else none
  | Effect.copyfile _ d => some d

/-- Modelled from the spec: the Image Codec Collaborator (spec section 2,
treated as a black box; its encode/decode code is not part of this
repository) resolves a save that carries no explicit format keyword from
the destination filename's extension via its extension registry, never from
the in-memory image's original format.  Only the registry entries relevant
here are modelled. -/
def extFormatRegistry (ext : String) : String :=
  if pyLower ext = "tif" ∨ pyLower ext = "tiff" then "TIFF"
  else if pyLower ext = "jpg" ∨ pyLower ext = "jpeg" then "JPEG"
  else pyUpper ext

/-- Modelled from the spec: the format the codec collaborator actually
encodes with, given the save call's format keyword and the destination
extension. -/
def codecResolvedFormat (formatArg : Option String) (ext : String) : String :=
  match formatArg with
  | some f => f
  | none => extFormatRegistry ext

/-! ## The batch model (core.py `compress_batch`, lines 165-205) -/

/-- One element of the list `compress_batch` returns: either the dictionary
of a successful `compress` or the error dictionary
`{"src": path, "error": message}` built on line 204. -/
inductive BatchEntry where
  | ok (r : ResultDict)
  | err (src : String) (msg : String)
deriving DecidableEq

/-- Effects of the batch orchestration itself: the recursive creation of the
output directory (line 192) and the submission of one compression job
(line 199). -/
inductive BatchEffect where
  | mkdirRec (d : String)
  | dispatchJob (src dst : String)
deriving DecidableEq

/-- The entry recorded for one source path, given the outcome function `f`
of the dispatched `compress(str(p), str(dst), **kwargs)` call: a raised
exception becomes an error entry for that path alone (lines 200-204). -/
def batchEntryOf (f : String → String → Except String ResultDict) (out_dir p : String) :
    BatchEntry :=
  match f p (pathJoin out_dir (pathName p)) with
  | Except.ok r => BatchEntry.ok r
  | Except.error e => BatchEntry.err p e

/-- Model of `compress_batch` (core.py lines 165-205): the output directory
is created first, then one job per input path is dispatched with destination
`out_dir / basename(path)`; results are appended in completion order, an
arbitrary permutation `order` of the job indices chosen by the thread pool's
`as_completed`. -/
def compress_batch (paths : List String) (out_dir : String)
    (f : String → String → Except String ResultDict) (order : List ℕ) :
    List BatchEffect × List BatchEntry :=
  (BatchEffect.mkdirRec out_dir ::
     paths.map (fun p => BatchEffect.dispatchJob p (pathJoin out_dir (pathName p))),
   (order.filterMap (fun i => paths[i]?)).map (batchEntryOf f out_dir))

/-! ## Helper lemmas -/

theorem pngSave_exif (d m : String) (q : ℤ) (o : Bool) (dims : ℕ × ℕ) :
    (pngSave d m q o dims).exif = none := by
  unfold pngSave; split_ifs <;> rfl

theorem pngSave_format (d m : String) (q : ℤ) (o : Bool) (dims : ℕ × ℕ) :
    (pngSave d m q o dims).format = some "PNG" := by
  unfold pngSave; split_ifs <;> rfl

theorem paletteCount_eq_floor (q : ℤ) :
    paletteCount q = max 2 ⌊(256 * (q : ℚ)) / 100⌋ := by
  unfold paletteCount pyInt
  split_ifs with h0
  · rfl
  · push_neg at h0
    have h1 : ⌈(256 * (q : ℚ)) / 100⌉ ≤ 0 :=
      Int.ceil_le.mpr (by exact_mod_cast h0.le)
    have h2 : ⌊(256 * (q : ℚ)) / 100⌋ ≤ 0 :=
      le_trans (Int.floor_le_ceil _) h1
    rw [max_eq_left (le_trans h1 (by norm_num)), max_eq_left (le_trans h2 (by norm_num))]

/-! ## C2: target-format resolution (corrected) -/

/-- Line 119 in isolation: the `or` chain picks the first truthy operand
and the result is uppercased. -/
theorem resolveTarget_priority (ct fmt : Option String) (ext : String) :
    (∀ s, ct = some s → s ≠ "" → resolveTarget ct fmt ext = pyUpper s) ∧
    ((ct = none ∨ ct = some "") → ∀ f, fmt = some f → f ≠ "" →
      resolveTarget ct fmt ext = pyUpper f) ∧
    ((ct = none ∨ ct = some "") → (fmt = none ∨ fmt = some "") →
      resolveTarget ct fmt ext = pyUpper ext) := by
  refine ⟨?_, ?_, ?_⟩
  · intro s hs hne
    subst hs
    simp [resolveTarget, pyOrOpt, pyOrStr, hne]
  · intro hct f hf hfne
    subst hf
    rcases hct with h | h <;> subst h <;>
      simp [resolveTarget, pyOrOpt, pyOrStr, hfne]
  · intro hct hfmt
    rcases hct with h | h <;> subst h <;>
      rcases hfmt with h2 | h2 <;> subst h2 <;>
        simp [resolveTarget, pyOrOpt, pyOrStr]

/-- The concrete call refuting C2 as stated: a CMYK-mode JPEG written to a
`.png` destination.  Line 114 converts the mode, the converted image's
`format` attribute is `None`, and the extension — not the detected JPEG
format — decides the target. -/
def argsCmyk : CompressArgs :=
  { src := "in/cmyk.jpg", dst := "out/cmyk.png", quality := 95 }

def envCmyk : Env :=
  { srcExists := true, srcSize := 8, mode := "CMYK", format := some "JPEG",
    width := 2, height := 2, exif := none, encodeOk := true, dstSize := 4 }

/-- Counterexample to C2 as stated: with no override and a detected JPEG
format, the claim demands target JPEG, but the program resolves PNG from
the destination extension (the detected format was lost with the mode
conversion) and takes the PNG branch. -/
theorem compress_target_detected_counterexample :
    envCmyk.format = some "JPEG" ∧ argsCmyk.convert_to = none ∧
    resolveTarget argsCmyk.convert_to
      (formatAfterNormalize envCmyk.mode envCmyk.format)
      (pySuffixNoDot argsCmyk.dst) = "PNG" ∧
    ("PNG" : String) ≠ pyUpper "JPEG" ∧
    (∃ sc, (compress argsCmyk envCmyk).1 =
      [Effect.ensureParentDir argsCmyk.dst, Effect.save sc envCmyk.encodeOk] ∧
      sc.format = some "PNG") := by
  refine ⟨rfl, rfl, by decide, by decide, ?_⟩
  exact ⟨pngSave argsCmyk.dst "RGB" 95 true (2, 2), by decide, by decide⟩

/-- C2 (amended): the target format is resolved case-insensitively with
priority: the explicit `convert_to` override when given (non-empty), else
the image's `format` attribute at resolution time — equal to the source's
detected format when the decoded mode was RGB, RGBA or L, and `None` (so
skipped) when mode normalization replaced the image — else the destination
path's file extension. -/
theorem compress_target_priority (a : CompressArgs) (env : Env) :
    (∀ s, a.convert_to = some s → s ≠ "" →
      resolveTarget a.convert_to (formatAfterNormalize env.mode env.format)
        (pySuffixNoDot a.dst) = pyUpper s) ∧
    ((env.mode = "RGB" ∨ env.mode = "RGBA" ∨ env.mode = "L") →
      (a.convert_to = none ∨ a.convert_to = some "") →
      ∀ f, env.format = some f → f ≠ "" →
      resolveTarget a.convert_to (formatAfterNormalize env.mode env.format)
        (pySuffixNoDot a.dst) = pyUpper f) ∧
    (¬(env.mode = "RGB" ∨ env.mode = "RGBA" ∨ env.mode = "L") →
      (a.convert_to = none ∨ a.convert_to = some "") →
      resolveTarget a.convert_to (formatAfterNormalize env.mode env.format)
        (pySuffixNoDot a.dst) = pyUpper (pySuffixNoDot a.dst)) ∧
    ((a.convert_to = none ∨ a.convert_to = some "") →
      (env.format = none ∨ env.format = some "") →
      resolveTarget a.convert_to (formatAfterNormalize env.mode env.format)
        (pySuffixNoDot a.dst) = pyUpper (pySuffixNoDot a.dst)) := by
  refine ⟨?_, ?_, ?_, ?_⟩
  · intro s hs hne
    exact (resolveTarget_priority _ _ _).1 s hs hne
  · intro hm hct f hf hfne
    have heq : formatAfterNormalize env.mode env.format = some f := by
      unfold formatAfterNormalize
      rw [if_pos hm]
      exact hf
    exact (resolveTarget_priority _ _ _).2.1 hct f heq hfne
  · intro hm hct
    have h0 : formatAfterNormalize env.mode env.format = none := by
      unfold formatAfterNormalize
      rw [if_neg hm]
    exact (resolveTarget_priority _ _ _).2.2 hct (Or.inl h0)
  · intro hct hf
    have hor : formatAfterNormalize env.mode env.format = none ∨
        formatAfterNormalize env.mode env.format = some "" := by
      unfold formatAfterNormalize
      split_ifs
      · exact hf
      · exact Or.inl rfl
    exact (resolveTarget_priority _ _ _).2.2 hct hor

/-- Witness for C2 (amended): for a converted CMYK source the destination
extension decides the target. -/
theorem compress_target_priority_witness :
    resolveTarget argsCmyk.convert_to
      (formatAfterNormalize envCmyk.mode envCmyk.format)
      (pySuffixNoDot argsCmyk.dst) = pyUpper (pySuffixNoDot argsCmyk.dst) :=
  (compress_target_priority argsCmyk envCmyk).2.2.1 (by decide) (Or.inl rfl)

/-! ## C6: missing source fails before any side effect -/

/-- C6: when the source path does not exist, `compress` raises the
source-not-found error with an empty effect trace — in particular before
creating any destination parent directory. -/
theorem compress_missing_source (a : CompressArgs) (env : Env)
    (h : env.srcExists = false) :
    compress a env = ([], Except.error (CompressError.sourceNotFound a.src)) := by
  simp [compress, h]

/-- Witness for C6 at a concrete input. -/
theorem compress_missing_source_witness :
    compress { src := "missing.jpg", dst := "out.jpg" }
        { srcExists := false, srcSize := 0, mode := "RGB", format := some "JPEG",
          width := 1, height := 1, exif := none, encodeOk := true, dstSize := 0 } =
      ([], Except.error (CompressError.sourceNotFound "missing.jpg")) :=
  compress_missing_source _ _ rfl

/-! ## C4 and C8: batch orchestration -/

theorem filterMap_getElem_range (l : List String) :
    (List.range l.length).filterMap (fun i => l[i]?) = l := by
  induction l with
  | nil => simp
  | cons a t ih =>
    rw [List.length_cons, List.range_succ_eq_map, List.filterMap_cons]
    simp only [List.getElem?_cons_zero, List.filterMap_map, Function.comp_def,
      List.getElem?_cons_succ]
    rw [ih]

/-- C4: for any completion order (a permutation of the job indices),
`compress_batch` on N input paths answers exactly N results — a permutation
of the per-path entries; a unit that raises is recorded as an error entry
for its own path, and each path's entry depends only on its own unit's
outcome, so a failure never affects sibling paths. -/
theorem compress_batch_result_count (f : String → String → Except String ResultDict)
    (paths : List String) (out_dir : String) (order : List ℕ)
    (hperm : order.Perm (List.range paths.length)) :
    ((compress_batch paths out_dir f order).2).length = paths.length ∧
    ((compress_batch paths out_dir f order).2).Perm
      (paths.map (batchEntryOf f out_dir)) ∧
    (∀ p e, f p (pathJoin out_dir (pathName p)) = Except.error e →
      batchEntryOf f out_dir p = BatchEntry.err p e) ∧
    (∀ (g : String → String → Except String ResultDict) (q : String),
      f q (pathJoin out_dir (pathName q)) = g q (pathJoin out_dir (pathName q)) →
      batchEntryOf f out_dir q = batchEntryOf g out_dir q) := by
  have h1 : (order.filterMap (fun i => paths[i]?)).Perm paths := by
    have h2 := hperm.filterMap (fun i => paths[i]?)
    rwa [filterMap_getElem_range] at h2
  refine ⟨?_, h1.map (batchEntryOf f out_dir), ?_, ?_⟩
  · simpa [compress_batch] using (h1.map (batchEntryOf f out_dir)).length_eq
  · intro p e he
    simp [batchEntryOf, he]
  · intro g q hq
    simp [batchEntryOf, hq]

/-- Witness for C4 at a concrete batch of three paths whose middle unit
fails, collected out of input order. -/
theorem compress_batch_result_count_witness :
    ((compress_batch ["a.png", "b.png", "c.png"] "o"
        (fun p _ => if p = "b.png" then Except.error "Source not found: b.png"
          else Except.ok { src := p, dst := "o/" ++ p, orig_size := 10, new_size := 5 })
        [2, 0, 1]).2).length = 3 :=
  (compress_batch_result_count _ ["a.png", "b.png", "c.png"] "o" [2, 0, 1] (by decide)).1

/-- C8: `compress_batch` creates the output directory recursively as its
first effect, before every job dispatch, and each dispatched job's
destination is the output directory joined with the basename of its source
path. -/
theorem compress_batch_destinations (paths : List String) (out_dir : String)
    (f : String → String → Except String ResultDict) (order : List ℕ) :
    ((compress_batch paths out_dir f order).1).head? =
      some (BatchEffect.mkdirRec out_dir) ∧
    ((compress_batch paths out_dir f order).1).tail =
      paths.map (fun p => BatchEffect.dispatchJob p (pathJoin out_dir (pathName p))) ∧
    (∀ s d, BatchEffect.dispatchJob s d ∈ (compress_batch paths out_dir f order).1 →
      d = pathJoin out_dir (pathName s)) ∧
    (∀ p ∈ paths,
      BatchEffect.dispatchJob p (pathJoin out_dir (pathName p)) ∈
        ((compress_batch paths out_dir f order).1).tail) := by
  refine ⟨rfl, rfl, ?_, ?_⟩
  · intro s d hd
    simp only [compress_batch, List.mem_cons, List.mem_map] at hd
    rcases hd with h | ⟨p, _, h⟩
    · exact absurd h (by simp)
    · cases h
      rfl
  · intro p hp
    simp only [compress_batch, List.tail_cons, List.mem_map]
    exact ⟨p, hp, rfl⟩

/-- Witness for C8 at a concrete batch. -/
theorem compress_batch_destinations_witness :
    BatchEffect.dispatchJob "in/a.png" (pathJoin "o" (pathName "in/a.png")) ∈
      ((compress_batch ["in/a.png"] "o" (fun _ _ => Except.error "e") []).1).tail :=
  (compress_batch_destinations ["in/a.png"] "o" (fun _ _ => Except.error "e") []).2.2.2
    "in/a.png" (by decide)

/-! ## Shape of a `compress` run with an existing source -/

theorem compress_eq (a : CompressArgs) (env : Env) (hs : env.srcExists = true) :
    compress a env =
      (Effect.ensureParentDir a.dst ::
        (encodeStep a env (resolveTarget a.convert_to (formatAfterNormalize env.mode env.format) (pySuffixNoDot a.dst))
          (normalizeMode env.mode)
          (if a.preserve_exif then env.exif else none)
          (resize_if_needed (env.width, env.height) a.max_size)).1,
       (encodeStep a env (resolveTarget a.convert_to (formatAfterNormalize env.mode env.format) (pySuffixNoDot a.dst))
          (normalizeMode env.mode)
          (if a.preserve_exif then env.exif else none)
          (resize_if_needed (env.width, env.height) a.max_size)).2) := by
  simp [compress, hs]

theorem encodeStep_jpeg (a : CompressArgs) (env : Env) (target mode : String)
    (exifB : Option (List ℕ)) (dims : ℕ × ℕ)
    (h1 : target = "JPG" ∨ target = "JPEG") :
    encodeStep a env target mode exifB dims =
      ([Effect.save (jpegSave a.dst a.quality a.optimize a.progressive exifB mode dims)
          env.encodeOk],
       if env.encodeOk then
         Except.ok { src := a.src, dst := a.dst, orig_size := env.srcSize,
                     new_size := env.dstSize }
       else Except.error CompressError.encodeError) := by
  simp only [encodeStep]
  rw [if_pos h1]

theorem encodeStep_webp (a : CompressArgs) (env : Env) (target mode : String)
    (exifB : Option (List ℕ)) (dims : ℕ × ℕ)
    (h1 : ¬(target = "JPG" ∨ target = "JPEG")) (h2 : target = "WEBP") :
    encodeStep a env target mode exifB dims =
      ([Effect.save (webpSave a.dst a.quality a.webp_lossless mode dims) env.encodeOk],
       if env.encodeOk then
         Except.ok { src := a.src, dst := a.dst, orig_size := env.srcSize,
                     new_size := env.dstSize }
       else Except.error CompressError.encodeError) := by
  simp only [encodeStep]
  rw [if_neg h1, if_pos h2]

theorem encodeStep_png (a : CompressArgs) (env : Env) (target mode : String)
    (exifB : Option (List ℕ)) (dims : ℕ × ℕ)
    (h1 : ¬(target = "JPG" ∨ target = "JPEG")) (h2 : ¬target = "WEBP")
    (h3 : target = "PNG") :
    encodeStep a env target mode exifB dims =
      ([Effect.save (pngSave a.dst mode a.quality a.optimize dims) env.encodeOk],
       if env.encodeOk then
         Except.ok { src := a.src, dst := a.dst, orig_size := env.srcSize,
                     new_size := env.dstSize }
       else Except.error CompressError.encodeError) := by
  simp only [encodeStep]
  rw [if_neg h1, if_neg h2, if_pos h3]

theorem encodeStep_other (a : CompressArgs) (env : Env) (target mode : String)
    (exifB : Option (List ℕ)) (dims : ℕ × ℕ)
    (h1 : ¬(target = "JPG" ∨ target = "JPEG")) (h2 : ¬target = "WEBP")
    (h3 : ¬target = "PNG") :
    encodeStep a env target mode exifB dims =
      (if env.encodeOk then [Effect.save (fallbackSave a.dst mode dims) true]
       else [Effect.save (fallbackSave a.dst mode dims) false, Effect.copyfile a.src a.dst],
       Except.ok { src := a.src, dst := a.dst, orig_size := env.srcSize,
                   new_size := env.dstSize }) := by
  simp only [encodeStep]
  rw [if_neg h1, if_neg h2, if_neg h3]
  cases env.encodeOk <;> simp

theorem normalizeMode_ne_RGBA (m : String) (h : hasAlpha m = false) :
    normalizeMode m ≠ "RGBA" := by
  simp only [hasAlpha, decide_eq_false_iff_not, not_or] at h
  unfold normalizeMode
  split_ifs with h1
  · exact h.1
  · decide

/-! ## C1: the PNG encoding branch -/

/-- C1: with resolved target PNG, an RGBA image is encoded directly with the
optimize flag and no palette reduction; an image with no alpha channel and
quality below 90 is first reduced to an adaptive palette of
`max(2, floor(256 * quality / 100))` colors (128 colors at quality 50) and
saved indexed; at quality at least 90 the image is saved full-color with the
optimize flag and no palette reduction. -/
theorem compress_png_encoding (a : CompressArgs) (env : Env)
    (hs : env.srcExists = true)
    (ht : resolveTarget a.convert_to (formatAfterNormalize env.mode env.format) (pySuffixNoDot a.dst) = "PNG") :
    ∃ sc, (compress a env).1 = [Effect.ensureParentDir a.dst, Effect.save sc env.encodeOk] ∧
      sc.format = some "PNG" ∧
      (env.mode = "RGBA" →
        sc.mode = "RGBA" ∧ sc.optimize = some a.optimize ∧ sc.paletteColors = none) ∧
      (hasAlpha env.mode = false → a.quality < 90 →
        sc.mode = "P" ∧
        sc.paletteColors = some (max 2 ⌊(256 * (a.quality : ℚ)) / 100⌋) ∧
        sc.optimize = some a.optimize) ∧
      (90 ≤ a.quality →
        sc.mode = normalizeMode env.mode ∧ sc.optimize = some a.optimize ∧
        sc.paletteColors = none) ∧
      (hasAlpha env.mode = false → a.quality = 50 → sc.paletteColors = some 128) := by
  refine ⟨pngSave a.dst (normalizeMode env.mode) a.quality a.optimize
      (resize_if_needed (env.width, env.height) a.max_size),
    ?_, pngSave_format _ _ _ _ _, ?_, ?_, ?_, ?_⟩
  · rw [compress_eq a env hs]
    simp [encodeStep, ht]
  · intro hm
    have hnm : normalizeMode env.mode = "RGBA" := by simp [normalizeMode, hm]
    rw [hnm]
    simp [pngSave]
  · intro hA hq
    have hne := normalizeMode_ne_RGBA env.mode hA
    simp [pngSave, hne, hq, paletteCount_eq_floor]
  · intro hq
    have h90 : ¬(a.quality < 90) := not_lt.mpr hq
    by_cases hm : normalizeMode env.mode = "RGBA"
    · simp [pngSave, hm]
    · simp [pngSave, hm, h90]
  · intro hA hq50
    have hne := normalizeMode_ne_RGBA env.mode hA
    have hq : a.quality < 90 := by rw [hq50]; decide
    simp only [pngSave, if_neg hne, if_pos hq, hq50]
    norm_num [paletteCount, pyInt]

/-- Witness for C1: quality 50, RGB source, PNG target — palette of 128
colors. -/
theorem compress_png_encoding_witness :
    ∃ sc,
      (compress { src := "in.png", dst := "out.png", quality := 50 }
          { srcExists := true, srcSize := 100, mode := "RGB", format := some "PNG",
            width := 8, height := 8, exif := none, encodeOk := true, dstSize := 60 }).1 =
        [Effect.ensureParentDir "out.png", Effect.save sc true] ∧
      sc.format = some "PNG" ∧
      (("RGB" : String) = "RGBA" →
        sc.mode = "RGBA" ∧ sc.optimize = some true ∧ sc.paletteColors = none) ∧
      (hasAlpha "RGB" = false → (50 : ℤ) < 90 →
        sc.mode = "P" ∧
        sc.paletteColors = some (max 2 ⌊(256 * ((50 : ℤ) : ℚ)) / 100⌋) ∧
        sc.optimize = some true) ∧
      ((90 : ℤ) ≤ 50 →
        sc.mode = normalizeMode "RGB" ∧ sc.optimize = some true ∧
        sc.paletteColors = none) ∧
      (hasAlpha "RGB" = false → (50 : ℤ) = 50 → sc.paletteColors = some 128) :=
  compress_png_encoding _ _ rfl (by decide)

/-! ## C9: EXIF embedding -/

/-- C9: with `preserve_exif` set, a save call carries an EXIF keyword only
in the JPEG branch, only equal to the extracted blob, and only when the blob
is non-empty; in the WebP, PNG and generic branches no EXIF bytes are ever
passed, and an empty blob is not embedded even for JPEG. -/
theorem compress_exif_only_jpeg (a : CompressArgs) (env : Env)
    (hp : a.preserve_exif = true) :
    ∀ sc ok, Effect.save sc ok ∈ (compress a env).1 →
      (sc.exif ≠ none →
        (resolveTarget a.convert_to (formatAfterNormalize env.mode env.format) (pySuffixNoDot a.dst) = "JPG" ∨
         resolveTarget a.convert_to (formatAfterNormalize env.mode env.format) (pySuffixNoDot a.dst) = "JPEG") ∧
        sc.exif = env.exif ∧ env.exif ≠ some []) ∧
      (¬(resolveTarget a.convert_to (formatAfterNormalize env.mode env.format) (pySuffixNoDot a.dst) = "JPG" ∨
         resolveTarget a.convert_to (formatAfterNormalize env.mode env.format) (pySuffixNoDot a.dst) = "JPEG") →
        sc.exif = none) ∧
      (env.exif = some [] → sc.exif = none) := by
  intro sc ok hmem
  cases hs : env.srcExists with
  | false =>
    rw [compress_missing_source a env hs] at hmem
    simp at hmem
  | true =>
    rw [compress_eq a env hs] at hmem
    by_cases h1 : resolveTarget a.convert_to (formatAfterNormalize env.mode env.format) (pySuffixNoDot a.dst) = "JPG" ∨
        resolveTarget a.convert_to (formatAfterNormalize env.mode env.format) (pySuffixNoDot a.dst) = "JPEG"
    · rw [encodeStep_jpeg a env _ _ _ _ h1] at hmem
      simp only [List.mem_cons, List.mem_singleton, List.not_mem_nil, or_false] at hmem
      rcases hmem with hbad | hmem
      · exact Effect.noConfusion hbad
      obtain ⟨hsc, -⟩ := Effect.save.inj hmem
      subst hsc
      rw [hp]
      refine ⟨?_, fun hcon => absurd h1 hcon, ?_⟩
      · intro hne
        refine ⟨h1, ?_, ?_⟩
        · cases hex : env.exif with
          | none => simp [jpegSave, hex] at hne
          | some l =>
            by_cases hl : l = []
            · rw [hl] at hex
              simp [jpegSave, hex] at hne
            · simp [jpegSave, hex, hl]
        · intro hex
          simp [jpegSave, hex] at hne
      · intro hex
        simp [jpegSave, hex]
    · have hrest :
          (resolveTarget a.convert_to (formatAfterNormalize env.mode env.format) (pySuffixNoDot a.dst) = "WEBP" ∨
           resolveTarget a.convert_to (formatAfterNormalize env.mode env.format) (pySuffixNoDot a.dst) = "PNG" ∨
           (¬resolveTarget a.convert_to (formatAfterNormalize env.mode env.format) (pySuffixNoDot a.dst) = "WEBP" ∧
            ¬resolveTarget a.convert_to (formatAfterNormalize env.mode env.format) (pySuffixNoDot a.dst) = "PNG")) := by
        tauto
      have hexif_none : sc.exif = none := by
        rcases hrest with h2 | h2 | ⟨h2, h3⟩
        · rw [encodeStep_webp a env _ _ _ _ h1 h2] at hmem
          simp only [List.mem_cons, List.mem_singleton, List.not_mem_nil, or_false] at hmem
          rcases hmem with hbad | hmem
          · exact Effect.noConfusion hbad
          obtain ⟨hsc, -⟩ := Effect.save.inj hmem
          rw [hsc]
          rfl
        · by_cases h2w : resolveTarget a.convert_to (formatAfterNormalize env.mode env.format) (pySuffixNoDot a.dst) = "WEBP"
          · rw [encodeStep_webp a env _ _ _ _ h1 h2w] at hmem
            simp only [List.mem_cons, List.mem_singleton, List.not_mem_nil, or_false] at hmem
            rcases hmem with hbad | hmem
            · exact Effect.noConfusion hbad
            obtain ⟨hsc, -⟩ := Effect.save.inj hmem
            rw [hsc]
            rfl
          · rw [encodeStep_png a env _ _ _ _ h1 h2w h2] at hmem
            simp only [List.mem_cons, List.mem_singleton, List.not_mem_nil, or_false] at hmem
            rcases hmem with hbad | hmem
            · exact Effect.noConfusion hbad
            obtain ⟨hsc, -⟩ := Effect.save.inj hmem
            rw [hsc]
            exact pngSave_exif _ _ _ _ _
        · rw [encodeStep_other a env _ _ _ _ h1 h2 h3] at hmem
          cases hok : env.encodeOk <;> rw [hok] at hmem <;>
            simp only [if_pos, if_neg, Bool.false_eq_true, ite_false, ite_true,
              List.mem_cons, List.mem_singleton, List.not_mem_nil, or_false] at hmem
          · rcases hmem with hbad | hmem
            · exact Effect.noConfusion hbad
            rcases hmem with hmem | hbad
            · obtain ⟨hsc, -⟩ := Effect.save.inj hmem
              rw [hsc]
              rfl
            · exact Effect.noConfusion hbad
          · rcases hmem with hbad | hmem
            · exact Effect.noConfusion hbad
            obtain ⟨hsc, -⟩ := Effect.save.inj hmem
            rw [hsc]
            rfl
      exact ⟨fun hne => absurd hexif_none hne, fun _ => hexif_none, fun _ => hexif_none⟩

/-- Witness for C9 at a concrete JPEG-target call preserving a non-empty
EXIF blob. -/
theorem compress_exif_only_jpeg_witness :
    ((jpegSave "o/p.jpg" 85 true true (some [1, 2]) "RGB" (1, 1)).exif ≠ none →
      (resolveTarget none (formatAfterNormalize "RGB" (some "JPEG")) (pySuffixNoDot "o/p.jpg") = "JPG" ∨
       resolveTarget none (formatAfterNormalize "RGB" (some "JPEG")) (pySuffixNoDot "o/p.jpg") = "JPEG") ∧
      (jpegSave "o/p.jpg" 85 true true (some [1, 2]) "RGB" (1, 1)).exif = some [1, 2] ∧
      (some [1, 2] : Option (List ℕ)) ≠ some []) ∧
    (¬(resolveTarget none (formatAfterNormalize "RGB" (some "JPEG")) (pySuffixNoDot "o/p.jpg") = "JPG" ∨
       resolveTarget none (formatAfterNormalize "RGB" (some "JPEG")) (pySuffixNoDot "o/p.jpg") = "JPEG") →
      (jpegSave "o/p.jpg" 85 true true (some [1, 2]) "RGB" (1, 1)).exif = none) ∧
    ((some [1, 2] : Option (List ℕ)) = some [] →
      (jpegSave "o/p.jpg" 85 true true (some [1, 2]) "RGB" (1, 1)).exif = none) :=
  compress_exif_only_jpeg
    { src := "p.jpg", dst := "o/p.jpg", preserve_exif := true }
    { srcExists := true, srcSize := 5, mode := "RGB", format := some "JPEG",
      width := 1, height := 1, exif := some [1, 2], encodeOk := true, dstSize := 3 }
    rfl (jpegSave "o/p.jpg" 85 true true (some [1, 2]) "RGB" (1, 1)) true (by decide)

/-! ## C10: alpha-bearing non-RGBA modes -/

/-- C10: a source mode that carries alpha but is not RGBA (LA, PA, ...) is
normalized to RGB, losing the alpha channel; under a PNG target and quality
below 90 such an image therefore takes the no-alpha path and is
palette-reduced. -/
theorem compress_nonRGBA_alpha (a : CompressArgs) (env : Env)
    (hA : hasAlpha env.mode = true) (hNR : env.mode ≠ "RGBA") :
    normalizeMode env.mode = "RGB" ∧ hasAlpha (normalizeMode env.mode) = false ∧
    (env.srcExists = true →
      resolveTarget a.convert_to (formatAfterNormalize env.mode env.format) (pySuffixNoDot a.dst) = "PNG" →
      a.quality < 90 →
      ∃ sc, (compress a env).1 = [Effect.ensureParentDir a.dst, Effect.save sc env.encodeOk] ∧
        sc.mode = "P" ∧ sc.paletteColors = some (paletteCount a.quality)) := by
  have hm : normalizeMode env.mode = "RGB" := by
    simp only [hasAlpha, decide_eq_true_eq] at hA
    rcases hA with h | h | h | h | h
    · exact absurd h hNR
    all_goals simp [normalizeMode, h]
  refine ⟨hm, by rw [hm]; decide, ?_⟩
  intro hs ht hq
  refine ⟨pngSave a.dst (normalizeMode env.mode) a.quality a.optimize
      (resize_if_needed (env.width, env.height) a.max_size), ?_, ?_⟩
  · rw [compress_eq a env hs]
    simp [encodeStep, ht]
  · rw [hm]
    simp [pngSave, hq]

/-- Witness for C10 at a concrete LA-mode source with PNG target and
quality 70. -/
theorem compress_nonRGBA_alpha_witness :
    normalizeMode "LA" = "RGB" ∧ hasAlpha (normalizeMode "LA") = false ∧
    (true = true →
      resolveTarget none (formatAfterNormalize "LA" (some "PNG"))
        (pySuffixNoDot "out/gray.png") = "PNG" →
      (70 : ℤ) < 90 →
      ∃ sc,
        (compress { src := "in/gray.png", dst := "out/gray.png", quality := 70 }
            { srcExists := true, srcSize := 50, mode := "LA", format := some "PNG",
              width := 3, height := 3, exif := none, encodeOk := true, dstSize := 20 }).1 =
          [Effect.ensureParentDir "out/gray.png", Effect.save sc true] ∧
        sc.mode = "P" ∧ sc.paletteColors = some (paletteCount 70)) :=
  compress_nonRGBA_alpha
    { src := "in/gray.png", dst := "out/gray.png", quality := 70 }
    { srcExists := true, srcSize := 50, mode := "LA", format := some "PNG",
      width := 3, height := 3, exif := none, encodeOk := true, dstSize := 20 }
    (by decide) (by decide)

/-! ## C5: the generic fallback branch (corrected) -/

/-- The concrete call refuting the claim that the fallback branch encodes in
the image's own original format: a TIFF-format image saved to a `.bmp`
destination. -/
def argsTifToBmp : CompressArgs :=
  { src := "in/scan.tif", dst := "out/scan.bmp" }

def envTifToBmp : Env :=
  { srcExists := true, srcSize := 9, mode := "RGB", format := some "TIFF",
    width := 4, height := 4, exif := none, encodeOk := true, dstSize := 9 }

/-- Counterexample to C5 as stated: in the generic fallback branch the save
call passes no format keyword, so the codec resolves the encode format from
the destination extension (BMP here), not the image's own original format
(TIFF). -/
theorem compress_fallback_format_counterexample :
    resolveTarget argsTifToBmp.convert_to (formatAfterNormalize envTifToBmp.mode envTifToBmp.format)
      (pySuffixNoDot argsTifToBmp.dst) = "TIFF" ∧
    isExplicitTarget "TIFF" = false ∧
    (∃ sc ok, Effect.save sc ok ∈ (compress argsTifToBmp envTifToBmp).1 ∧
      sc.format = none ∧
      codecResolvedFormat sc.format (pySuffixNoDot argsTifToBmp.dst) = "BMP") ∧
    envTifToBmp.format = some "TIFF" ∧ ("BMP" : String) ≠ "TIFF" := by
  refine ⟨by decide, by decide, ?_, rfl, by decide⟩
  refine ⟨fallbackSave argsTifToBmp.dst "RGB" (4, 4), true, ?_, rfl, by decide⟩
  decide

/-- C5 (amended): with a resolved target outside JPEG/JPG, WebP and PNG, the
compressor attempts a generic encode with no explicit format (which the
codec resolves from the destination extension); if the encode fails for any
reason the source is byte-copied to the destination, so the call still
succeeds and a write to the destination path completes.  In the explicit
JPEG, WebP and PNG branches an encode failure propagates uncaught. -/
theorem compress_fallback_copy (a : CompressArgs) (env : Env)
    (hs : env.srcExists = true) :
    (isExplicitTarget (resolveTarget a.convert_to (formatAfterNormalize env.mode env.format) (pySuffixNoDot a.dst)) = false →
      (∃ sc ok, Effect.save sc ok ∈ (compress a env).1 ∧ sc.format = none) ∧
      (env.encodeOk = false → Effect.copyfile a.src a.dst ∈ (compress a env).1) ∧
      (∃ e, e ∈ (compress a env).1 ∧ writesFileTo e = some a.dst) ∧
      (∃ r, (compress a env).2 = Except.ok r)) ∧
    (isExplicitTarget (resolveTarget a.convert_to (formatAfterNormalize env.mode env.format) (pySuffixNoDot a.dst)) = true →
      env.encodeOk = false →
      (compress a env).2 = Except.error CompressError.encodeError) := by
  constructor
  · intro hexp
    simp only [isExplicitTarget, decide_eq_false_iff_not, not_or] at hexp
    obtain ⟨hj1, hj2, hw, hpng⟩ := hexp
    rw [compress_eq a env hs,
      encodeStep_other a env _ _ _ _ (by tauto) hw hpng]
    cases hok : env.encodeOk
    · simp only [Bool.false_eq_true, if_false]
      exact ⟨⟨fallbackSave a.dst (normalizeMode env.mode)
          (resize_if_needed (env.width, env.height) a.max_size), false,
          by simp, rfl⟩,
        fun _ => by simp,
        ⟨Effect.copyfile a.src a.dst, by simp, rfl⟩,
        ⟨_, rfl⟩⟩
    · simp only [if_true]
      exact ⟨⟨fallbackSave a.dst (normalizeMode env.mode)
          (resize_if_needed (env.width, env.height) a.max_size), true,
          by simp, rfl⟩,
        fun hcon => Bool.noConfusion hcon,
        ⟨Effect.save (fallbackSave a.dst (normalizeMode env.mode)
            (resize_if_needed (env.width, env.height) a.max_size)) true,
          by simp, rfl⟩,
        ⟨_, rfl⟩⟩
  · intro hexp hok
    simp only [isExplicitTarget, decide_eq_true_eq] at hexp
    rw [compress_eq a env hs]
    rcases hexp with h | h | h
    · rw [encodeStep_jpeg a env _ _ _ _ (Or.inl h)]
      simp [hok]
    · rw [encodeStep_jpeg a env _ _ _ _ (Or.inr h)]
      simp [hok]
    · rcases h with h | h
      · by_cases hj : resolveTarget a.convert_to (formatAfterNormalize env.mode env.format) (pySuffixNoDot a.dst) = "JPG" ∨
            resolveTarget a.convert_to (formatAfterNormalize env.mode env.format) (pySuffixNoDot a.dst) = "JPEG"
        · rw [encodeStep_jpeg a env _ _ _ _ hj]
          simp [hok]
        · rw [encodeStep_webp a env _ _ _ _ hj h]
          simp [hok]
      · by_cases hj : resolveTarget a.convert_to (formatAfterNormalize env.mode env.format) (pySuffixNoDot a.dst) = "JPG" ∨
            resolveTarget a.convert_to (formatAfterNormalize env.mode env.format) (pySuffixNoDot a.dst) = "JPEG"
        · rw [encodeStep_jpeg a env _ _ _ _ hj]
          simp [hok]
        · by_cases hw : resolveTarget a.convert_to (formatAfterNormalize env.mode env.format) (pySuffixNoDot a.dst) = "WEBP"
          · rw [encodeStep_webp a env _ _ _ _ hj hw]
            simp [hok]
          · rw [encodeStep_png a env _ _ _ _ hj hw h]
            simp [hok]

/-- Witness for C5 (amended) at a concrete GIF-target call whose encode
fails: the byte-copy fallback fires and the call still succeeds. -/
theorem compress_fallback_copy_witness :
    Effect.copyfile "in/anim.gif" "out/anim.gif" ∈
      (compress { src := "in/anim.gif", dst := "out/anim.gif" }
        { srcExists := true, srcSize := 7, mode := "P", format := some "GIF",
          width := 2, height := 2, exif := none, encodeOk := false, dstSize := 7 }).1 :=
  ((compress_fallback_copy
      { src := "in/anim.gif", dst := "out/anim.gif" }
      { srcExists := true, srcSize := 7, mode := "P", format := some "GIF",
        width := 2, height := 2, exif := none, encodeOk := false, dstSize := 7 }
      rfl).1 (by decide)).2.1 rfl

/-! ## C7: write targets (corrected) -/

/-- The concrete call refuting the claim that the source file is never
modified: `compress` invoked with destination equal to the source path. -/
def argsOverwrite : CompressArgs :=
  { src := "photo.jpg", dst := "photo.jpg" }

def envOverwrite : Env :=
  { srcExists := true, srcSize := 10, mode := "RGB", format := some "JPEG",
    width := 2, height := 2, exif := none, encodeOk := true, dstSize := 8 }

/-- Counterexample to C7 as stated: when the destination path equals the
source path, the (successful) save is a completed write to the source
file. -/
theorem compress_source_overwrite_counterexample :
    argsOverwrite.src = argsOverwrite.dst ∧
    ∃ e, e ∈ (compress argsOverwrite envOverwrite).1 ∧
      writesFileTo e = some argsOverwrite.src := by
  refine ⟨rfl, Effect.save (jpegSave "photo.jpg" 85 true true none "RGB" (2, 2)) true,
    ?_, rfl⟩
  decide

/-- C7 (amended): every filesystem write of a `compress` call — attempted or
completed — targets the destination path, and no other file; in particular,
whenever the destination differs from the source, the source file is never
written. -/
theorem compress_writes_only_destination (a : CompressArgs) (env : Env) :
    (∀ e ∈ (compress a env).1, ∀ p, touchesFile e = some p → p = a.dst) ∧
    (a.src ≠ a.dst → ∀ e ∈ (compress a env).1, touchesFile e ≠ some a.src) := by
  have hmain : ∀ e ∈ (compress a env).1, ∀ p, touchesFile e = some p → p = a.dst := by
    intro e he p hp
    cases hs : env.srcExists with
    | false =>
      rw [compress_missing_source a env hs] at he
      simp at he
    | true =>
      rw [compress_eq a env hs] at he
      rcases List.mem_cons.mp he with h | h
      · rw [h] at hp
        exact Option.noConfusion hp
      · by_cases h1 : resolveTarget a.convert_to (formatAfterNormalize env.mode env.format) (pySuffixNoDot a.dst) = "JPG" ∨
            resolveTarget a.convert_to (formatAfterNormalize env.mode env.format) (pySuffixNoDot a.dst) = "JPEG"
        · rw [encodeStep_jpeg a env _ _ _ _ h1] at h
          rcases List.mem_singleton.mp h with rfl
          simp [touchesFile, jpegSave] at hp
          exact hp.symm
        · by_cases h2 : resolveTarget a.convert_to (formatAfterNormalize env.mode env.format) (pySuffixNoDot a.dst) = "WEBP"
          · rw [encodeStep_webp a env _ _ _ _ h1 h2] at h
            rcases List.mem_singleton.mp h with rfl
            simp [touchesFile, webpSave] at hp
            exact hp.symm
          · by_cases h3 : resolveTarget a.convert_to (formatAfterNormalize env.mode env.format) (pySuffixNoDot a.dst) = "PNG"
            · rw [encodeStep_png a env _ _ _ _ h1 h2 h3] at h
              rcases List.mem_singleton.mp h with rfl
              have : (pngSave a.dst (normalizeMode env.mode) a.quality a.optimize
                  (resize_if_needed (env.width, env.height) a.max_size)).file = a.dst := by
                unfold pngSave
                split_ifs <;> rfl
              simp [touchesFile, this] at hp
              exact hp.symm
            · rw [encodeStep_other a env _ _ _ _ h1 h2 h3] at h
              cases hok : env.encodeOk <;> rw [hok] at h
              · simp only [Bool.false_eq_true, if_false, List.mem_cons,
                  List.mem_singleton, List.not_mem_nil, or_false] at h
                rcases h with rfl | rfl
                · simp [touchesFile, fallbackSave] at hp
                  exact hp.symm
                · simp [touchesFile] at hp
                  exact hp.symm
              · simp only [if_true, List.mem_singleton] at h
                rcases h with rfl
                simp [touchesFile, fallbackSave] at hp
                exact hp.symm
  refine ⟨hmain, ?_⟩
  intro hne e he hcon
  exact hne ((hmain e he a.src hcon).symm ▸ rfl)

/-- Witness for C7 (amended) at a concrete call with distinct source and
destination: the save effect does not touch the source path. -/
theorem compress_writes_only_destination_witness :
    touchesFile (Effect.save (jpegSave "o/x.jpg" 85 true true none "RGB" (1, 1)) true) ≠
      some "x.jpg" :=
  (compress_writes_only_destination
      { src := "x.jpg", dst := "o/x.jpg" }
      { srcExists := true, srcSize := 4, mode := "RGB", format := some "JPEG",
        width := 1, height := 1, exif := none, encodeOk := true, dstSize := 2 }).2
    (by decide)
    (Effect.save (jpegSave "o/x.jpg" 85 true true none "RGB" (1, 1)) true)
    (by decide)

/-! ## C3: resize conditions and thumbnail geometry -/

theorem roundAspect_mem (t : ℚ) (key : ℤ → ℚ) :
    roundAspect t key = max ⌊t⌋ 1 ∨ roundAspect t key = max ⌈t⌉ 1 := by
  unfold roundAspect
  split_ifs
  · exact Or.inl rfl
  · exact Or.inr rfl

theorem clampRound_props (t : ℚ) (p : ℤ) (hp : p = ⌊t⌋ ∨ p = ⌈t⌉) (ht : 0 < t) :
    1 ≤ max p 1 ∧ |((max p 1 : ℤ) : ℚ) - t| < 1 ∧
      ∀ B : ℤ, 1 ≤ B → t ≤ (B : ℚ) → max p 1 ≤ B := by
  have hceil1 : 1 ≤ ⌈t⌉ := Int.ceil_pos.mpr ht
  refine ⟨le_max_right _ _, ?_, ?_⟩
  · rcases hp with rfl | rfl
    · by_cases h0 : 1 ≤ ⌊t⌋
      · rw [max_eq_left h0, abs_sub_lt_iff]
        have hf1 : (⌊t⌋ : ℚ) ≤ t := Int.floor_le t
        have hf2 : t < ⌊t⌋ + 1 := Int.lt_floor_add_one t
        constructor <;> linarith
      · push_neg at h0
        rw [max_eq_right (by omega), abs_sub_lt_iff]
        have hf2 : t < ⌊t⌋ + 1 := Int.lt_floor_add_one t
        have h3 : (⌊t⌋ : ℚ) ≤ 0 := by
          have : ⌊t⌋ ≤ 0 := by omega
          exact_mod_cast this
        have ht1 : t < 1 := by linarith
        constructor
        · push_cast
          linarith
        · push_cast
          linarith
    · rw [max_eq_left hceil1, abs_sub_lt_iff]
      have hc1 : (⌈t⌉ : ℚ) < t + 1 := Int.ceil_lt_add_one t
      have hc2 : t ≤ ⌈t⌉ := Int.le_ceil t
      constructor <;> linarith
  · intro B hB htB
    rcases hp with rfl | rfl
    · exact max_le (le_trans (Int.floor_le_ceil t) (Int.ceil_le.mpr htB)) hB
    · exact max_le (Int.ceil_le.mpr htB) hB

theorem roundAspect_props (t : ℚ) (key : ℤ → ℚ) (ht : 0 < t) :
    1 ≤ roundAspect t key ∧ |((roundAspect t key : ℤ) : ℚ) - t| < 1 ∧
      ∀ B : ℤ, 1 ≤ B → t ≤ (B : ℚ) → roundAspect t key ≤ B := by
  rcases roundAspect_mem t key with h | h <;> rw [h]
  · exact clampRound_props t ⌊t⌋ (Or.inl rfl) ht
  · exact clampRound_props t ⌈t⌉ (Or.inr rfl) ht

theorem thumbnailDims_spec (w h mx my : ℕ) (hw : 1 ≤ w) (hh : 1 ≤ h)
    (hmx : 1 ≤ mx) (hmy : 1 ≤ my) (hbig : ¬(w ≤ mx ∧ h ≤ my)) :
    (thumbnailDims w h mx my).1 ≤ mx ∧ (thumbnailDims w h mx my).2 ≤ my ∧
    (thumbnailDims w h mx my).1 ≤ w ∧ (thumbnailDims w h mx my).2 ≤ h ∧
    (((thumbnailDims w h mx my).1 : ℤ) * h - ((thumbnailDims w h mx my).2 : ℤ) * w).natAbs
      < max w h := by
  have hwQ : (0 : ℚ) < w := by exact_mod_cast hw
  have hhQ : (0 : ℚ) < h := by exact_mod_cast hh
  have hmxQ : (0 : ℚ) < mx := by exact_mod_cast hmx
  have hmyQ : (0 : ℚ) < my := by exact_mod_cast hmy
  have haspect : (0 : ℚ) < (w : ℚ) / (h : ℚ) := div_pos hwQ hhQ
  simp only [thumbnailDims, if_neg hbig]
  by_cases hbr : ((w : ℚ) / (h : ℚ)) ≤ (mx : ℚ) / (my : ℚ)
  · rw [if_pos hbr]
    have htpos : (0 : ℚ) < (my : ℚ) * ((w : ℚ) / (h : ℚ)) := mul_pos hmyQ haspect
    obtain ⟨h1, h2, h3⟩ := roundAspect_props ((my : ℚ) * ((w : ℚ) / (h : ℚ)))
      (fun n => |(w : ℚ) / (h : ℚ) - (n : ℚ) / (my : ℚ)|) htpos
    have hmylt : my < h := by
      by_contra hcon
      push_neg at hcon
      have hq1 : (w : ℚ) * my ≤ mx * h := (div_le_div_iff₀ hhQ hmyQ).mp hbr
      have hn1 : w * my ≤ mx * h := by exact_mod_cast hq1
      have hn2 : mx * h ≤ mx * my := Nat.mul_le_mul_left mx hcon
      have hn3 : w ≤ mx := Nat.le_of_mul_le_mul_right (le_trans hn1 hn2) (by omega)
      exact hbig ⟨hn3, hcon⟩
    have htmx : (my : ℚ) * ((w : ℚ) / (h : ℚ)) ≤ (mx : ℚ) := by
      have hstep : (my : ℚ) * ((w : ℚ) / (h : ℚ)) ≤ (my : ℚ) * ((mx : ℚ) / (my : ℚ)) :=
        mul_le_mul_of_nonneg_left hbr hmyQ.le
      have hcanc : (my : ℚ) * ((mx : ℚ) / (my : ℚ)) = mx := by
        field_simp
      linarith
    have htw : (my : ℚ) * ((w : ℚ) / (h : ℚ)) < (w : ℚ) := by
      have hstep : (my : ℚ) * ((w : ℚ) / (h : ℚ)) < (h : ℚ) * ((w : ℚ) / (h : ℚ)) :=
        mul_lt_mul_of_pos_right (by exact_mod_cast hmylt) haspect
      have hcanc : (h : ℚ) * ((w : ℚ) / (h : ℚ)) = w := by
        field_simp
      linarith
    have hrmx : roundAspect ((my : ℚ) * ((w : ℚ) / (h : ℚ)))
        (fun n => |(w : ℚ) / (h : ℚ) - (n : ℚ) / (my : ℚ)|) ≤ (mx : ℤ) :=
      h3 mx (by exact_mod_cast hmx) (by push_cast; exact htmx)
    have hrw : roundAspect ((my : ℚ) * ((w : ℚ) / (h : ℚ)))
        (fun n => |(w : ℚ) / (h : ℚ) - (n : ℚ) / (my : ℚ)|) ≤ (w : ℤ) :=
      h3 w (by exact_mod_cast hw) (by push_cast; exact htw.le)
    refine ⟨Int.toNat_le.mpr hrmx, le_refl my, Int.toNat_le.mpr hrw, hmylt.le, ?_⟩
    have hth : ((my : ℚ) * ((w : ℚ) / (h : ℚ))) * h = (my : ℚ) * w := by
      field_simp
    have habsQ : |((roundAspect ((my : ℚ) * ((w : ℚ) / (h : ℚ)))
        (fun n => |(w : ℚ) / (h : ℚ) - (n : ℚ) / (my : ℚ)|) : ℤ) : ℚ) * h -
          (my : ℚ) * w| < (h : ℚ) := by
      rw [← hth, show ((roundAspect ((my : ℚ) * ((w : ℚ) / (h : ℚ)))
          (fun n => |(w : ℚ) / (h : ℚ) - (n : ℚ) / (my : ℚ)|) : ℤ) : ℚ) * h -
          ((my : ℚ) * ((w : ℚ) / (h : ℚ))) * h =
          (((roundAspect ((my : ℚ) * ((w : ℚ) / (h : ℚ)))
            (fun n => |(w : ℚ) / (h : ℚ) - (n : ℚ) / (my : ℚ)|) : ℤ) : ℚ) -
            (my : ℚ) * ((w : ℚ) / (h : ℚ))) * h from by ring,
        abs_mul, abs_of_pos hhQ]
      calc |((roundAspect ((my : ℚ) * ((w : ℚ) / (h : ℚ)))
            (fun n => |(w : ℚ) / (h : ℚ) - (n : ℚ) / (my : ℚ)|) : ℤ) : ℚ) -
            (my : ℚ) * ((w : ℚ) / (h : ℚ))| * h
          < 1 * h := mul_lt_mul_of_pos_right h2 hhQ
        _ = h := one_mul _
    have hr0 : ((roundAspect ((my : ℚ) * ((w : ℚ) / (h : ℚ)))
        (fun n => |(w : ℚ) / (h : ℚ) - (n : ℚ) / (my : ℚ)|)).toNat : ℤ) =
        roundAspect ((my : ℚ) * ((w : ℚ) / (h : ℚ)))
          (fun n => |(w : ℚ) / (h : ℚ) - (n : ℚ) / (my : ℚ)|) :=
      Int.toNat_of_nonneg (by omega)
    rw [hr0]
    have hfin : ((roundAspect ((my : ℚ) * ((w : ℚ) / (h : ℚ)))
        (fun n => |(w : ℚ) / (h : ℚ) - (n : ℚ) / (my : ℚ)|) * (h : ℤ) -
        (my : ℤ) * (w : ℤ)).natAbs : ℚ) < (h : ℚ) := by
      rw [Int.cast_natAbs]
      push_cast
      push_cast at habsQ
      exact habsQ
    have hle : (h : ℚ) ≤ ((max w h : ℕ) : ℚ) := by
      exact_mod_cast Nat.le_max_right w h
    exact_mod_cast lt_of_lt_of_le hfin hle
  · rw [if_neg hbr]
    have hbr2 : (mx : ℚ) / (my : ℚ) < (w : ℚ) / (h : ℚ) := not_le.mp hbr
    have htpos : (0 : ℚ) < (mx : ℚ) / ((w : ℚ) / (h : ℚ)) := div_pos hmxQ haspect
    obtain ⟨h1, h2, h3⟩ := roundAspect_props ((mx : ℚ) / ((w : ℚ) / (h : ℚ)))
      (fun n => if n = 0 then 0 else |(w : ℚ) / (h : ℚ) - (mx : ℚ) / (n : ℚ)|) htpos
    have hmxlt : mx < w := by
      by_contra hcon
      push_neg at hcon
      have hq1 : (mx : ℚ) * h < w * my := (div_lt_div_iff₀ hmyQ hhQ).mp hbr2
      have hn1 : mx * h < w * my := by exact_mod_cast hq1
      have hn2 : w * h ≤ mx * h := Nat.mul_le_mul_right h hcon
      have hn3 : h < my := Nat.lt_of_mul_lt_mul_left (lt_of_le_of_lt hn2 hn1)
      exact hbig ⟨hcon, hn3.le⟩
    have hteq : (mx : ℚ) / ((w : ℚ) / (h : ℚ)) = (mx : ℚ) * h / w := by
      rw [div_div_eq_mul_div]
    have htmy : (mx : ℚ) / ((w : ℚ) / (h : ℚ)) ≤ (my : ℚ) := by
      rw [hteq, div_le_iff₀ hwQ]
      have := (div_lt_div_iff₀ hmyQ hhQ).mp hbr2
      linarith
    have hth2 : (mx : ℚ) / ((w : ℚ) / (h : ℚ)) < (h : ℚ) := by
      rw [hteq, div_lt_iff₀ hwQ]
      have : (mx : ℚ) < w := by exact_mod_cast hmxlt
      nlinarith
    have hrmy : roundAspect ((mx : ℚ) / ((w : ℚ) / (h : ℚ)))
        (fun n => if n = 0 then 0 else |(w : ℚ) / (h : ℚ) - (mx : ℚ) / (n : ℚ)|) ≤ (my : ℤ) :=
      h3 my (by exact_mod_cast hmy) (by push_cast; exact htmy)
    have hrh : roundAspect ((mx : ℚ) / ((w : ℚ) / (h : ℚ)))
        (fun n => if n = 0 then 0 else |(w : ℚ) / (h : ℚ) - (mx : ℚ) / (n : ℚ)|) ≤ (h : ℤ) :=
      h3 h (by exact_mod_cast hh) (by push_cast; exact hth2.le)
    refine ⟨le_refl mx, Int.toNat_le.mpr hrmy, hmxlt.le, Int.toNat_le.mpr hrh, ?_⟩
    have hth : ((mx : ℚ) / ((w : ℚ) / (h : ℚ))) * w = (mx : ℚ) * h := by
      rw [hteq]
      field_simp
    have habsQ : |((roundAspect ((mx : ℚ) / ((w : ℚ) / (h : ℚ)))
        (fun n => if n = 0 then 0 else |(w : ℚ) / (h : ℚ) - (mx : ℚ) / (n : ℚ)|) : ℤ) : ℚ) * w -
          (mx : ℚ) * h| < (w : ℚ) := by
      rw [← hth, show ((roundAspect ((mx : ℚ) / ((w : ℚ) / (h : ℚ)))
          (fun n => if n = 0 then 0 else |(w : ℚ) / (h : ℚ) - (mx : ℚ) / (n : ℚ)|) : ℤ) : ℚ) * w -
          ((mx : ℚ) / ((w : ℚ) / (h : ℚ))) * w =
          (((roundAspect ((mx : ℚ) / ((w : ℚ) / (h : ℚ)))
            (fun n => if n = 0 then 0 else |(w : ℚ) / (h : ℚ) - (mx : ℚ) / (n : ℚ)|) : ℤ) : ℚ) -
            (mx : ℚ) / ((w : ℚ) / (h : ℚ))) * w from by ring,
        abs_mul, abs_of_pos hwQ]
      calc |((roundAspect ((mx : ℚ) / ((w : ℚ) / (h : ℚ)))
            (fun n => if n = 0 then 0 else |(w : ℚ) / (h : ℚ) - (mx : ℚ) / (n : ℚ)|) : ℤ) : ℚ) -
            (mx : ℚ) / ((w : ℚ) / (h : ℚ))| * w
          < 1 * w := mul_lt_mul_of_pos_right h2 hwQ
        _ = w := one_mul _
    have hr0 : ((roundAspect ((mx : ℚ) / ((w : ℚ) / (h : ℚ)))
        (fun n => if n = 0 then 0 else |(w : ℚ) / (h : ℚ) - (mx : ℚ) / (n : ℚ)|)).toNat : ℤ) =
        roundAspect ((mx : ℚ) / ((w : ℚ) / (h : ℚ)))
          (fun n => if n = 0 then 0 else |(w : ℚ) / (h : ℚ) - (mx : ℚ) / (n : ℚ)|) :=
      Int.toNat_of_nonneg (by omega)
    rw [hr0]
    have hfin : (((mx : ℤ) * (h : ℤ) - roundAspect ((mx : ℚ) / ((w : ℚ) / (h : ℚ)))
        (fun n => if n = 0 then 0 else |(w : ℚ) / (h : ℚ) - (mx : ℚ) / (n : ℚ)|) * (w : ℤ)).natAbs
        : ℚ) < (w : ℚ) := by
      rw [Int.cast_natAbs, abs_sub_comm]
      push_cast
      push_cast at habsQ
      exact habsQ
    have hle : (w : ℚ) ≤ ((max w h : ℕ) : ℚ) := by
      exact_mod_cast Nat.le_max_left w h
    exact_mod_cast lt_of_lt_of_le hfin hle

/-- C3: the image is resized only when `max_size` is supplied, both of its
components are non-zero, and at least one current dimension exceeds the
corresponding bound — in every other case the dimensions are unchanged.
When a resize occurs the result fits in the bounding box, never upscales,
and preserves the aspect ratio up to integer rounding (the cross product of
the new and old dimensions differs by less than one rounding unit). -/
theorem resize_if_needed_spec (w h : ℕ) (hw : 1 ≤ w) (hh : 1 ≤ h)
    (ms : Option (ℕ × ℕ)) :
    (ms = none → resize_if_needed (w, h) ms = (w, h)) ∧
    (∀ mw mh, ms = some (mw, mh) → mw = 0 ∨ mh = 0 →
      resize_if_needed (w, h) ms = (w, h)) ∧
    (∀ mw mh, ms = some (mw, mh) → w ≤ mw ∧ h ≤ mh →
      resize_if_needed (w, h) ms = (w, h)) ∧
    (∀ mw mh, ms = some (mw, mh) → mw ≠ 0 → mh ≠ 0 → ¬(w ≤ mw ∧ h ≤ mh) →
      (resize_if_needed (w, h) ms).1 ≤ mw ∧ (resize_if_needed (w, h) ms).2 ≤ mh ∧
      (resize_if_needed (w, h) ms).1 ≤ w ∧ (resize_if_needed (w, h) ms).2 ≤ h ∧
      (((resize_if_needed (w, h) ms).1 : ℤ) * h -
        ((resize_if_needed (w, h) ms).2 : ℤ) * w).natAbs < max w h) := by
  refine ⟨?_, ?_, ?_, ?_⟩
  · intro hms
    rw [hms]
    rfl
  · intro mw mh hms hz
    rw [hms]
    simp only [resize_if_needed, if_pos hz]
  · intro mw mh hms hin
    rw [hms]
    simp only [resize_if_needed]
    by_cases hz : mw = 0 ∨ mh = 0
    · rw [if_pos hz]
    · rw [if_neg hz, if_pos hin]
  · intro mw mh hms hmw hmh hbig
    rw [hms]
    simp only [resize_if_needed, if_neg (by tauto : ¬(mw = 0 ∨ mh = 0)), if_neg hbig]
    exact thumbnailDims_spec w h mw mh hw hh (by omega) (by omega) hbig

/-- Witness for C3 at a concrete input: a 4x2 image against a 2x2 box is
resized to 2x1. -/
theorem resize_if_needed_spec_witness :
    (resize_if_needed (4, 2) (some (2, 2))).1 ≤ 2 ∧
    (resize_if_needed (4, 2) (some (2, 2))).2 ≤ 2 ∧
    (resize_if_needed (4, 2) (some (2, 2))).1 ≤ 4 ∧
    (resize_if_needed (4, 2) (some (2, 2))).2 ≤ 2 ∧
    (((resize_if_needed (4, 2) (some (2, 2))).1 : ℤ) * 2 -
      ((resize_if_needed (4, 2) (some (2, 2))).2 : ℤ) * 4).natAbs < max 4 2 :=
  (resize_if_needed_spec 4 2 (by decide) (by decide) (some (2, 2))).2.2.2
    2 2 rfl (by decide) (by decide) (by decide)

end PixCompress
